import Mathlib

/-!
Verification development for the pyrustpipe validation pipeline.

The Python sources are shallowly embedded: each `def` below mirrors one
Python function from `src/python/pyrustpipe/`.  Error messages produced by
`Schema.validate_dict` are message strings in Python; here each distinct
message shape is one constructor of `VErr`, carrying exactly the data that
is interpolated into the message.  Machine `float` values are modelled as
rationals; no claim under consideration exercises binary rounding.
-/

namespace PyRustPipe

/-- Python type tags occurring as `field_type` (src/python/pyrustpipe/schema.py). -/
inductive PyType where
  | str | int | float | bool
deriving DecidableEq, Repr

/-- Python scalar values a record can hold. -/
inductive PyValue where
  | str (s : String)
  | int (n : Int)
  | float (q : Rat)
  | bool (b : Bool)
deriving DecidableEq, Repr

/-- `type_map` in `Field.to_rust_rules` (schema.py lines 42-47). -/
def typeName : PyType → String
  | .str => "string"
  | .int => "integer"
  | .float => "number"
  | .bool => "boolean"

/-- Python `isinstance(value, t)` for the four schema types.
`bool` is a subclass of `int` in Python, so a `bool` value is an
instance of `int`; no other cross-type instance relation holds here. -/
def isinstance : PyValue → PyType → Bool
  | .str _, .str => true
  | .int _, .int => true
  | .float _, .float => true
  | .bool _, .bool => true
  | .bool _, .int => true
  | _, _ => false

/-- Numeric value of a Python scalar, when `isinstance(value, (int, float))`
holds; `True` and `False` are the numbers 1 and 0. -/
def numVal : PyValue → Option Rat
  | .int n => some (n : Rat)
  | .float q => some q
  | .bool b => some (if b then 1 else 0)
  | .str _ => none

/-- Python `==` between record values (used by the `in choices` test):
numbers compare by numeric value across int/float/bool, strings by content,
and numeric values never equal strings. -/
def pyEq (a b : PyValue) : Bool :=
  match numVal a, numVal b with
  | some x, some y => x == y
  | _, _ =>
    match a, b with
    | .str s, .str t => s == t
    | _, _ => false

/-- A compiled regular expression (`re.compile` in `Field.__post_init__`):
the original source text plus the matcher `re.Pattern.match` gives. -/
structure PyPattern where
  source : String
  matchFn : String → Bool

/-- `Field` dataclass (schema.py lines 8-26).  The pattern is stored
pre-compiled; a custom validator may raise, modelled with `Except`. -/
structure Field where
  field_type : PyType
  required : Bool := false
  min : Option Rat := none
  max : Option Rat := none
  min_length : Option Int := none
  max_length : Option Int := none
  pattern : Option PyPattern := none
  choices : Option (List PyValue) := none
  custom_validator : Option (PyValue → Except String Bool) := none
  error_message : Option String := none

/-- One validation error message of `Schema.validate_dict`, as data:
each constructor is one f-string shape from schema.py lines 130-191,
carrying the values interpolated into it. -/
inductive VErr where
  | required (field : String)
  | typeMismatch (field : String) (t : PyType)
  | rangeMin (field : String) (bound : Rat)
  | rangeMax (field : String) (bound : Rat)
  | lengthMin (field : String) (bound : Int)
  | lengthMax (field : String) (bound : Int)
  | patternMismatch (field : String)
  | choiceViolation (field : String) (choices : List PyValue)
  | customFailed (field : String) (msg : Option String)
  | customError (field : String) (msg : String)
deriving DecidableEq, Repr

/-- The field name interpolated into an error message. -/
def VErr.field : VErr → String
  | .required f => f
  | .typeMismatch f _ => f
  | .rangeMin f _ => f
  | .rangeMax f _ => f
  | .lengthMin f _ => f
  | .lengthMax f _ => f
  | .patternMismatch f => f
  | .choiceViolation f _ => f
  | .customFailed f _ => f
  | .customError f _ => f

/-- Range block of `Schema.validate_dict` (lines 150-155): runs when
`isinstance(value, (int, float))`, comparing the numeric value against
whichever bounds are present, reporting every failing bound. -/
def rangeCheckErrs (name : String) (fd : Field) (v : PyValue) : List VErr :=
  match numVal v with
  | none => []
  | some q =>
    (match fd.min with
     | some m => if q < m then [.rangeMin name m] else []
     | none => []) ++
    (match fd.max with
     | some m => if q > m then [.rangeMax name m] else []
     | none => [])

/-- Length block of `Schema.validate_dict` (lines 157-167): runs only for
string values. -/
def lengthCheckErrs (name : String) (fd : Field) (v : PyValue) : List VErr :=
  match v with
  | .str s =>
    (match fd.min_length with
     | some m => if (s.length : Int) < m then [.lengthMin name m] else []
     | none => []) ++
    (match fd.max_length with
     | some m => if (s.length : Int) > m then [.lengthMax name m] else []
     | none => [])
  | _ => []

/-- Pattern block of `Schema.validate_dict` (lines 169-174): runs when a
pattern is set and the value is a string. -/
def patternCheckErrs (name : String) (fd : Field) (v : PyValue) : List VErr :=
  match fd.pattern, v with
  | some p, .str s => if p.matchFn s then [] else [.patternMismatch name]
  | _, _ => []

/-- Choices block of `Schema.validate_dict` (lines 176-180): `value not in
choices` under Python `==`. -/
def choiceCheckErrs (name : String) (fd : Field) (v : PyValue) : List VErr :=
  match fd.choices with
  | some cs => if cs.any (fun c => pyEq v c) then [] else [.choiceViolation name cs]
  | none => []

/-- Custom-validator block of `Schema.validate_dict` (lines 182-189): a
`False` return reports `error_message` (or the generic message), a raised
exception is caught and reported with its text. -/
def customCheckErrs (name : String) (fd : Field) (v : PyValue) : List VErr :=
  match fd.custom_validator with
  | some f =>
    match f v with
    | .ok true => []
    | .ok false => [.customFailed name fd.error_message]
    | .error e => [.customError name e]
  | none => []

/-- One iteration of the `for field_name, field_def in self.fields.items()`
loop of `Schema.validate_dict` (lines 132-189): the errors appended for a
single field, given `value = data.get(field_name)`.  A `continue` in the
source corresponds to returning the errors accumulated so far. -/
def validateField (name : String) (fd : Field) (value : Option PyValue) : List VErr :=
  match value with
  | none => if fd.required then [.required name] else []
  | some v =>
    if isinstance v fd.field_type then
      rangeCheckErrs name fd v ++ lengthCheckErrs name fd v ++
      patternCheckErrs name fd v ++ choiceCheckErrs name fd v ++
      customCheckErrs name fd v
    else
      [.typeMismatch name fd.field_type]

/-- A record: Python dict from field name to value, insertion-ordered. -/
abbrev Record := List (String × PyValue)

/-- Python `data.get(field_name)`. -/
def Record.get (data : Record) (k : String) : Option PyValue :=
  List.lookup k data

/-- A schema: the `fields` dict of `Schema`, insertion-ordered. -/
abbrev SchemaFields := List (String × Field)

/-- `Schema.validate_dict` (schema.py lines 120-191): the concatenation,
in field-declaration order, of each field's errors. -/
def validate_dict (fields : SchemaFields) (data : Record) : List VErr :=
  fields.flatMap (fun p => validateField p.1 p.2 (data.get p.1))

/-- `Validator.validate_dict` (validator.py lines 130-168) with no custom
row rules: the Rust extension `pyrustpipe._core` is absent from the
repository, so `_get_rust_validator` raises `ImportError`, the
`except Exception` branch runs, and the call falls back to
`Schema.validate_dict`; with `self.rules` empty nothing else is appended. -/
def validatorValidateDict (fields : SchemaFields) (data : Record) : List VErr :=
  validate_dict fields data

/-- `ValidationResult` dataclass (types.py lines 22-32), counts plus the
accumulated error list. -/
structure ValidationResult where
  valid_count : Int := 0
  invalid_count : Int := 0
  total_rows : Int := 0
  errors : List VErr := []
deriving DecidableEq, Repr

instance : Inhabited ValidationResult := ⟨{}⟩

/-- `ValidationResult.success_rate` (types.py lines 34-38); Python float
division modelled over the rationals. -/
def success_rate (r : ValidationResult) : Rat :=
  if r.total_rows = 0 then 0
  else ((r.valid_count : Rat) / (r.total_rows : Rat)) * 100

/-- `DistributedValidator._validate_chunk` (distributed.py lines 123-144):
counts rows with no errors, extends one flat error list in row order, and
computes `invalid_count` as `len(chunk) - total_valid`.  The source's
`chunk_num` parameter is never read in the body and is omitted. -/
def validate_chunk (fields : SchemaFields) (chunk : List Record) : ValidationResult :=
  { valid_count := (chunk.countP (fun r => (validatorValidateDict fields r).isEmpty) : Int)
    invalid_count := (chunk.length : Int) -
      (chunk.countP (fun r => (validatorValidateDict fields r).isEmpty) : Int)
    total_rows := (chunk.length : Int)
    errors := chunk.flatMap (fun r => validatorValidateDict fields r) }

/-- `DistributedValidator._aggregate_results` (distributed.py lines
146-161): sums the three counts and concatenates the error lists in the
order the partial results arrive. -/
def aggregate_results (results : List ValidationResult) : ValidationResult :=
  { valid_count := (results.map (·.valid_count)).sum
    invalid_count := (results.map (·.invalid_count)).sum
    total_rows := (results.map (·.total_rows)).sum
    errors := results.flatMap (·.errors) }

/-!
Parallel dispatch model for `DistributedValidator.validate_csv_parallel`
(distributed.py lines 53-99).  Chunk `i` is submitted to the pool as future
`i`; the pool may complete futures in any order, described below by a
completion schedule `σ` listing chunk indices in completion order (the
worker count only influences which schedules can arise, never the value a
future resolves to).  The gathering loop `for i, future in enumerate(futures):
result = future.result()` collects results by future identity in submission
order, so the list handed to `_aggregate_results` pairs position `i` with
chunk `i`'s result.
-/

/-- The pool's completion log under schedule `σ`: each completed future is
the pure value `validate_chunk` computes for its chunk. -/
def completionLog (fields : SchemaFields) (chunks : List (List Record))
    (σ : List Nat) : List (Nat × ValidationResult) :=
  σ.map (fun i => (i, validate_chunk fields (chunks.getD i [])))

/-- The gathering loop: for each submission index, block on that future and
read its result from the completion log. -/
def gatherResults (fields : SchemaFields) (chunks : List (List Record))
    (σ : List Nat) : List ValidationResult :=
  (List.range chunks.length).map
    (fun i => ((completionLog fields chunks σ).lookup i).getD default)

/-- `validate_csv_parallel` on a fixed chunk partition, as a function of
the pool's completion schedule; `workers` is the pool size. -/
def parallelValidate (fields : SchemaFields) (_workers : Nat)
    (chunks : List (List Record)) (σ : List Nat) : ValidationResult :=
  aggregate_results (gatherResults fields chunks σ)

/-- Dispatching the same chunks one after another with no pool and
aggregating, the sequential baseline the spec compares against. -/
def sequentialValidate (fields : SchemaFields)
    (chunks : List (List Record)) : ValidationResult :=
  aggregate_results (chunks.map (validate_chunk fields))

/-!
Streaming path (streaming.py).  `Validator.validate_dict` returns plain
message strings, and `StreamingValidator._validate_buffer` executes
`error.row_index = ...` on each of them; in Python, attribute assignment on
a `str` raises `AttributeError`.  The embedding makes that raising
assignment explicit.
-/

/-- The statement `error.row_index = row_count - len(buffer) + row_idx`
(streaming.py line 106).  The errors iterated over are the `str` values
returned by `Validator.validate_dict`; a Python `str` accepts no attribute
assignment, so this raises unconditionally. -/
def setRowIndex (_e : VErr) (_idx : Int) : Except String VErr :=
  .error "AttributeError: str object has no attribute row_index"

/-- `StreamingValidator._validate_buffer` (streaming.py lines 94-114):
walks the buffer, counting valid rows and re-indexing each error of an
invalid row before collecting it. -/
def validate_buffer (fields : SchemaFields) (buffer : List Record)
    (row_count : Int) : Except String ValidationResult := do
  let acc ← buffer.enum.foldlM
    (fun (acc : Int × List VErr) (p : Nat × Record) => do
      let errs := validatorValidateDict fields p.2
      if errs.isEmpty then
        pure (acc.1 + 1, acc.2)
      else
        let adjusted ← errs.mapM
          (fun e => setRowIndex e (row_count - (buffer.length : Int) + (p.1 : Int)))
        pure (acc.1, acc.2 ++ adjusted))
    ((0 : Int), ([] : List VErr))
  pure { valid_count := acc.1
         invalid_count := (buffer.length : Int) - acc.1
         total_rows := (buffer.length : Int)
         errors := acc.2 }

/-- State of the `validate_csv_stream` loop: pending buffer, rows consumed
so far, results yielded so far (newest last). -/
structure StreamState where
  buffer : List Record
  row_count : Int
  yielded : List ValidationResult

/-- `StreamingValidator.validate_csv_stream` (streaming.py lines 49-92):
rows arrive from `csv.DictReader`; when `skip_header` is set the loop
additionally discards the first yielded row.  Each time the buffer reaches
`buffer_size` rows it is validated and flushed; a final partial buffer is
validated at end of stream.  The generator's yields are returned as a list;
an exception escaping `_validate_buffer` aborts the stream. -/
def validate_csv_stream (fields : SchemaFields) (rows : List Record)
    (buffer_size : Nat) (skip_header : Bool) : Except String (List ValidationResult) := do
  let step : StreamState → Record → Except String StreamState := fun st row => do
    if skip_header && st.row_count == 0 then
      pure { st with row_count := st.row_count + 1 }
    else
      let buf := st.buffer ++ [row]
      let rc := st.row_count + 1
      if buf.length ≥ buffer_size then
        let r ← validate_buffer fields buf rc
        pure { buffer := [], row_count := rc, yielded := st.yielded ++ [r] }
      else
        pure { buffer := buf, row_count := rc, yielded := st.yielded }
  let final ← rows.foldlM step ⟨[], 0, []⟩
  if final.buffer.isEmpty then
    pure final.yielded
  else
    let r ← validate_buffer fields final.buffer final.row_count
    pure (final.yielded ++ [r])

/-!
Rule compilation (schema.py `Field.to_rust_rules`, lines 28-92).
-/

/-- The `rule_type` tags the compiler can emit, plus the `Choice` and
`Custom` tags named by the spec. -/
inductive RuleType where
  | Required | TypeCheck | Range | Length | Pattern | Choice | Custom
deriving DecidableEq, Repr

/-- The `params` dict of one compiled rule, by rule kind. -/
inductive RuleParams where
  | empty
  | typeParam (t : String)
  | rangeParams (min max : Option Rat)
  | lengthParams (min max : Option Int)
  | patternParam (source : String)
deriving DecidableEq, Repr

/-- One entry of the list `Field.to_rust_rules` builds. -/
structure CompiledRule where
  name : String
  field : String
  rule_type : RuleType
  params : RuleParams
deriving DecidableEq, Repr

/-- `Field.to_rust_rules` (schema.py lines 28-92): Required when
`required`, TypeCheck always, Range when a bound is set, Length when a
length bound is set, Pattern when a pattern is set — and nothing else. -/
def to_rust_rules (fd : Field) (field_name : String) : List CompiledRule :=
  (if fd.required then
     [{ name := field_name ++ "_required", field := field_name,
        rule_type := .Required, params := .empty }]
   else []) ++
  [{ name := field_name ++ "_type", field := field_name,
     rule_type := .TypeCheck, params := .typeParam (typeName fd.field_type) }] ++
  (if fd.min.isSome || fd.max.isSome then
     [{ name := field_name ++ "_range", field := field_name,
        rule_type := .Range, params := .rangeParams fd.min fd.max }]
   else []) ++
  (if fd.min_length.isSome || fd.max_length.isSome then
     [{ name := field_name ++ "_length", field := field_name,
        rule_type := .Length, params := .lengthParams fd.min_length fd.max_length }]
   else []) ++
  (match fd.pattern with
   | some p =>
     [{ name := field_name ++ "_pattern", field := field_name,
        rule_type := .Pattern, params := .patternParam p.source }]
   | none => [])

/-!
Content cache (caching.py `ValidationCache`).  Time is an integer clock
(`datetime.now()` at each call site), the SHA-256 digest of the input bytes
is taken as given — `save_result` and `load_result` on the same bytes key
by the same digest — and the on-disk size of a payload file is an abstract
function of its hash, supplied in the configuration.  The manifest is a
Python dict, modelled as an insertion-ordered association list in which
assigning to an existing key replaces the value in place.
-/

/-- One manifest entry (`self.manifest[file_hash]`, caching.py lines
135-139). -/
structure ManifestEntry where
  filepath : String
  created_at : Int
deriving DecidableEq, Repr

/-- The counts a payload file (`{file_hash}.json`) stores; `load_result`
reads back only these. -/
structure CachePayload where
  valid_count : Int
  invalid_count : Int
  total_rows : Int
deriving DecidableEq, Repr

/-- On-disk cache state: the manifest dict and the payload files. -/
structure CacheState where
  manifest : List (String × ManifestEntry)
  files : List (String × CachePayload)

/-- Configuration from `ValidationCache.__init__`: the TTL, the byte
budget, and the abstract payload-file size per hash. -/
structure CacheConfig where
  ttl : Int
  max_cache_size : Int
  entrySize : String → Int

/-- Python dict assignment `d[k] = v`: replace in place when the key
exists, else append. -/
def dictInsert {α : Type} (k : String) (v : α) :
    List (String × α) → List (String × α)
  | [] => [(k, v)]
  | (k', v') :: rest =>
    if k = k' then (k, v) :: rest else (k', v') :: dictInsert k v rest

/-- `ValidationCache._is_cache_valid` (caching.py lines 80-88). -/
def isCacheValid (cfg : CacheConfig) (st : CacheState) (hash : String)
    (now : Int) : Bool :=
  match st.manifest.lookup hash with
  | none => false
  | some e => decide (now - e.created_at < cfg.ttl)

/-- Expired-entry sweep of `_cleanup_cache` (caching.py lines 203-217):
keys whose age reaches the TTL. -/
def expiredKeys (cfg : CacheConfig) (manifest : List (String × ManifestEntry))
    (now : Int) : List String :=
  (manifest.filter (fun p => now - p.2.created_at ≥ cfg.ttl)).map (·.1)

/-- Total payload size of the manifest's entries whose payload file exists
(caching.py lines 220-224). -/
def cacheSize (cfg : CacheConfig) (manifest : List (String × ManifestEntry))
    (files : List (String × CachePayload)) : Int :=
  (manifest.map (fun p => if (files.lookup p.1).isSome then cfg.entrySize p.1 else 0)).sum

/-- Stable insertion into a list sorted ascending by creation time,
placing ties after existing entries, as Python's stable `sorted` does. -/
def insertByCreated (x : String × ManifestEntry) :
    List (String × ManifestEntry) → List (String × ManifestEntry)
  | [] => [x]
  | y :: ys =>
    if y.2.created_at ≤ x.2.created_at then y :: insertByCreated x ys
    else x :: y :: ys

/-- `sorted(self.manifest.items(), key=lambda x: x[1]['created_at'])`
(caching.py lines 228-231), as a stable insertion sort. -/
def sortByCreated : List (String × ManifestEntry) → List (String × ManifestEntry)
  | [] => []
  | x :: xs => insertByCreated x (sortByCreated xs)

/-- Eviction loop of `_cleanup_cache` (caching.py lines 233-242): walk the
entries oldest-first, stopping as soon as the size is within budget,
deleting each visited entry's payload (when it exists) and manifest row.
Returns the evicted hashes. -/
def evictLoop (cfg : CacheConfig) (files : List (String × CachePayload)) :
    List (String × ManifestEntry) → Int → List String
  | [], _ => []
  | (h, _) :: rest, size =>
    if size ≤ cfg.max_cache_size then []
    else
      let sz := if (files.lookup h).isSome then cfg.entrySize h else 0
      h :: evictLoop cfg files rest (size - sz)

/-- Drop the rows of an association list whose key is in `ks`. -/
def removeKeys {α : Type} (ks : List String) (l : List (String × α)) :
    List (String × α) :=
  l.filter (fun p => !(ks.contains p.1))

/-- Expired-entry purge, the first half of `_cleanup_cache` (caching.py
lines 203-217): drop every expired manifest row and its payload file. -/
def purgeExpired (cfg : CacheConfig) (st : CacheState) (now : Int) : CacheState :=
  let expired := expiredKeys cfg st.manifest now
  { manifest := removeKeys expired st.manifest
    files := removeKeys expired st.files }

/-- `ValidationCache._cleanup_cache` (caching.py lines 201-244): purge
expired entries, then evict oldest-first while over the size budget. -/
def cleanup_cache (cfg : CacheConfig) (st : CacheState) (now : Int) : CacheState :=
  let st1 := purgeExpired cfg st now
  let size := cacheSize cfg st1.manifest st1.files
  let evicted :=
    if size > cfg.max_cache_size then
      evictLoop cfg st1.files (sortByCreated st1.manifest) size
    else []
  { manifest := removeKeys evicted st1.manifest
    files := removeKeys evicted st1.files }

/-- The cache state right after `save_result` has written the payload file
and the manifest row, before the cleanup pass runs. -/
def stateAfterWrite (st : CacheState) (hash filepath : String)
    (r : ValidationResult) (now : Int) : CacheState :=
  { manifest := dictInsert hash
      ({ filepath := filepath, created_at := now } : ManifestEntry) st.manifest
    files := dictInsert hash
      ({ valid_count := r.valid_count, invalid_count := r.invalid_count,
         total_rows := r.total_rows } : CachePayload) st.files }

/-- `ValidationCache.save_result` (caching.py lines 103-142): write the
payload file for the hash, update the manifest entry with a fresh
timestamp, persist, and run the cleanup pass. -/
def save_result (cfg : CacheConfig) (st : CacheState) (hash filepath : String)
    (r : ValidationResult) (now : Int) : CacheState :=
  cleanup_cache cfg (stateAfterWrite st hash filepath r now) now

/-- `ValidationCache.load_result` (caching.py lines 144-173): a TTL-valid
manifest entry whose payload file exists yields a result carrying the
stored counts and an empty error list; anything else is a miss. -/
def load_result (cfg : CacheConfig) (st : CacheState) (hash : String)
    (now : Int) : Option ValidationResult :=
  if isCacheValid cfg st hash now then
    match st.files.lookup hash with
    | none => none
    | some p =>
      some { valid_count := p.valid_count, invalid_count := p.invalid_count,
             total_rows := p.total_rows, errors := [] }
  else none

/-!
Concrete schemas and records used by the claim theorems and witnesses.
-/

/-- The `id` field of the spec scenario: `string`, required. -/
def fdId : Field := { field_type := .str, required := true }

/-- The `age` field of the spec scenario: `integer`, min 18, max 120. -/
def fdAge : Field := { field_type := .int, min := some 18, max := some 120 }

/-- Scenario schema `{id: string required, age: integer min=18 max=120}`. -/
def schemaC8 : SchemaFields := [("id", fdId), ("age", fdAge)]

/-- A string field with an enumerated choices list. -/
def schemaC3 : SchemaFields :=
  [("status", { field_type := .str, choices := some [.str "active", .str "inactive"] })]

/-- A single required integer field. -/
def schemaC6 : SchemaFields := [("age", { field_type := .int, required := true })]

/-- Claim C9: `success_rate` is total — it returns 0 when `total_rows` is
zero instead of dividing by zero, and `valid_count / total_rows * 100`
otherwise. -/
theorem C9_success_rate_total (r : ValidationResult) :
    (r.total_rows = 0 → success_rate r = 0) ∧
    (0 < r.total_rows →
      success_rate r = (r.valid_count : Rat) / (r.total_rows : Rat) * 100) := by
  constructor
  · intro h
    simp [success_rate, h]
  · intro h
    have hne : r.total_rows ≠ 0 := by omega
    simp [success_rate, hne]

/-- Witness for C9 at concrete results. -/
theorem C9_witness :
    success_rate { valid_count := 3, invalid_count := 1, total_rows := 4, errors := [] } = 75 ∧
    success_rate { valid_count := 0, invalid_count := 0, total_rows := 0, errors := [] } = 0 := by
  constructor
  · have h := (C9_success_rate_total
      { valid_count := 3, invalid_count := 1, total_rows := 4, errors := [] }).2 (by decide)
    rw [h]
    norm_num
  · exact (C9_success_rate_total
      { valid_count := 0, invalid_count := 0, total_rows := 0, errors := [] }).1 rfl

/-- Claim C8: the spec scenario.  `{id: "1", age: 15}` yields exactly the
range error saying `age` must be at least 18; `{age: 200}` yields exactly
the required error on `id` followed by the range error saying `age` must
be at most 120; `{id: "2", age: 30}` yields no error. -/
theorem C8_scenario :
    validate_dict schemaC8 [("id", .str "1"), ("age", .int 15)] = [.rangeMin "age" 18] ∧
    validate_dict schemaC8 [("age", .int 200)] = [.required "id", .rangeMax "age" 120] ∧
    validate_dict schemaC8 [("id", .str "2"), ("age", .int 30)] = [] := by
  refine ⟨by decide, by decide, by decide⟩

/-- Claim C3 is refuted by the code: on a string field carrying a choices
list, a value that fails the type check produces only the type-mismatch
error — the `continue` in `Schema.validate_dict` suppresses the
type-independent choices check, so the error list is exactly the
singleton below and contains no `choiceViolation`. -/
theorem C3_type_mismatch_suppresses_choice_check :
    validate_dict schemaC3 [("status", .int 42)] = [.typeMismatch "status" .str] := by
  decide

/-- Claim C6 is refuted by the code: a buffer containing an invalid row
makes `_validate_buffer` execute `error.row_index = ...` on a plain `str`
error message, raising `AttributeError`, and `validate_csv_stream`
propagates it instead of yielding a `ValidationResult`. -/
theorem C6_invalid_row_raises :
    validate_buffer schemaC6 [[("age", PyValue.str "x")]] 1 =
      .error "AttributeError: str object has no attribute row_index" ∧
    validate_csv_stream schemaC6
        [[("age", PyValue.str "x")], [("age", PyValue.str "y")]] 10 true =
      .error "AttributeError: str object has no attribute row_index" := by
  exact ⟨rfl, rfl⟩

/-- Claim C2: every `ValidationResult` the pipeline produces satisfies
`valid_count + invalid_count = total_rows` — for each result
`_validate_buffer` returns, for each `_validate_chunk` result, and for the
`_aggregate_results` merge of partial results that satisfy it. -/
theorem C2_counts_invariant :
    (∀ (fields : SchemaFields) (buffer : List Record) (rc : Int) (r : ValidationResult),
       validate_buffer fields buffer rc = .ok r →
       r.valid_count + r.invalid_count = r.total_rows) ∧
    (∀ (fields : SchemaFields) (chunk : List Record),
       (validate_chunk fields chunk).valid_count +
         (validate_chunk fields chunk).invalid_count =
         (validate_chunk fields chunk).total_rows) ∧
    (∀ results : List ValidationResult,
       (∀ r ∈ results, r.valid_count + r.invalid_count = r.total_rows) →
       (aggregate_results results).valid_count +
         (aggregate_results results).invalid_count =
         (aggregate_results results).total_rows) := by
  refine ⟨?_, ?_, ?_⟩
  · intro fields buffer rc r h
    unfold validate_buffer at h
    cases hm : buffer.enum.foldlM
        (fun (acc : Int × List VErr) (p : Nat × Record) => do
          let errs := validatorValidateDict fields p.2
          if errs.isEmpty then
            pure (acc.1 + 1, acc.2)
          else
            let adjusted ← errs.mapM
              (fun e => setRowIndex e (rc - (buffer.length : Int) + (p.1 : Int)))
            pure (acc.1, acc.2 ++ adjusted))
        ((0 : Int), ([] : List VErr)) with
    | error e =>
      rw [hm] at h
      simp [Bind.bind, Except.bind] at h
    | ok acc =>
      rw [hm] at h
      simp only [Bind.bind, Except.bind, pure, Except.pure, Except.ok.injEq] at h
      subst h
      simp only []
      ring
  · intro fields chunk
    simp only [validate_chunk]
    ring
  · intro results
    induction results with
    | nil =>
      intro _
      simp [aggregate_results]
    | cons r rs ih =>
      intro h
      have h1 := h r (by simp)
      have h2 := ih (fun x hx => h x (by simp [hx]))
      simp only [aggregate_results, List.map_cons, List.sum_cons] at h2 ⊢
      omega

/-- Result of validating the one valid-row buffer used by the C2 witness. -/
def r0C2 : ValidationResult :=
  { valid_count := 1, invalid_count := 0, total_rows := 1, errors := [] }

/-- Witness for C2 at concrete inputs: a buffer of one valid row and the
aggregation of its result with itself. -/
theorem C2_witness :
    validate_buffer schemaC6 [[("age", PyValue.int 20)]] 1 = .ok r0C2 ∧
    r0C2.valid_count + r0C2.invalid_count = r0C2.total_rows ∧
    (aggregate_results [r0C2, r0C2]).valid_count +
      (aggregate_results [r0C2, r0C2]).invalid_count =
      (aggregate_results [r0C2, r0C2]).total_rows := by
  refine ⟨rfl, ?_, ?_⟩
  · exact C2_counts_invariant.1 schemaC6 [[("age", PyValue.int 20)]] 1 r0C2 rfl
  · refine C2_counts_invariant.2.2 [r0C2, r0C2] ?_
    intro x hx
    have hx' : x = r0C2 := by simpa using hx
    rw [hx']
    decide

/-- Whether an error message is the type-mismatch message. -/
def VErr.isTypeMismatch : VErr → Bool
  | .typeMismatch _ _ => true
  | _ => false

/-- Every range-block error names the checked field and is not a type
mismatch. -/
theorem mem_rangeCheckErrs {n : String} {fd : Field} {v : PyValue} {e : VErr}
    (h : e ∈ rangeCheckErrs n fd v) : e.field = n ∧ e.isTypeMismatch = false := by
  unfold rangeCheckErrs at h
  split at h
  · cases h
  · rcases List.mem_append.1 h with h | h <;> split at h <;> try cases h
    all_goals split at h <;> simp_all [VErr.field, VErr.isTypeMismatch]

/-- Every length-block error names the checked field and is not a type
mismatch. -/
theorem mem_lengthCheckErrs {n : String} {fd : Field} {v : PyValue} {e : VErr}
    (h : e ∈ lengthCheckErrs n fd v) : e.field = n ∧ e.isTypeMismatch = false := by
  unfold lengthCheckErrs at h
  split at h
  case h_2 => cases h
  rcases List.mem_append.1 h with h | h <;> split at h <;> try cases h
  all_goals split at h <;> simp_all [VErr.field, VErr.isTypeMismatch]

/-- Every pattern-block error names the checked field and is not a type
mismatch. -/
theorem mem_patternCheckErrs {n : String} {fd : Field} {v : PyValue} {e : VErr}
    (h : e ∈ patternCheckErrs n fd v) : e.field = n ∧ e.isTypeMismatch = false := by
  unfold patternCheckErrs at h
  split at h
  · split at h <;> simp_all [VErr.field, VErr.isTypeMismatch]
  · cases h

/-- Every choices-block error names the checked field and is not a type
mismatch. -/
theorem mem_choiceCheckErrs {n : String} {fd : Field} {v : PyValue} {e : VErr}
    (h : e ∈ choiceCheckErrs n fd v) : e.field = n ∧ e.isTypeMismatch = false := by
  unfold choiceCheckErrs at h
  split at h
  · split at h <;> simp_all [VErr.field, VErr.isTypeMismatch]
  · cases h

/-- Every custom-block error names the checked field and is not a type
mismatch. -/
theorem mem_customCheckErrs {n : String} {fd : Field} {v : PyValue} {e : VErr}
    (h : e ∈ customCheckErrs n fd v) : e.field = n ∧ e.isTypeMismatch = false := by
  unfold customCheckErrs at h
  split at h
  · split at h <;> simp_all [VErr.field, VErr.isTypeMismatch]
  · cases h

/-- Every error one field iteration appends names that field. -/
theorem mem_validateField {n : String} {fd : Field} {v : Option PyValue} {e : VErr}
    (h : e ∈ validateField n fd v) : e.field = n := by
  unfold validateField at h
  split at h
  · split at h <;> simp_all [VErr.field]
  · split at h
    · rcases List.mem_append.1 h with h | h
      · rcases List.mem_append.1 h with h | h
        · rcases List.mem_append.1 h with h | h
          · rcases List.mem_append.1 h with h | h
            · exact (mem_rangeCheckErrs h).1
            · exact (mem_lengthCheckErrs h).1
          · exact (mem_patternCheckErrs h).1
        · exact (mem_choiceCheckErrs h).1
      · exact (mem_customCheckErrs h).1
    · simp_all [VErr.field]

/-- Every error `Schema.validate_dict` accumulates names one of the
schema's declared fields. -/
theorem field_mem_validate_dict {fields : SchemaFields} {data : Record} {e : VErr}
    (h : e ∈ validate_dict fields data) : e.field ∈ fields.map Prod.fst := by
  rcases List.mem_flatMap.1 h with ⟨p, hp, he⟩
  rw [mem_validateField he]
  exact List.mem_map.2 ⟨p, hp, rfl⟩

/-- Claim C10: on an `int`-typed field, a boolean value passes the type
check (Python `bool` is a subclass of `int`), the structural checks then
run on it, the range block compares it as the number 1 or 0, and the field
never reports a type mismatch. -/
theorem C10_bool_passes_integer_type_check (name : String) (fd : Field) (b : Bool)
    (h : fd.field_type = .int) :
    validateField name fd (some (.bool b)) =
      rangeCheckErrs name fd (.bool b) ++ lengthCheckErrs name fd (.bool b) ++
      patternCheckErrs name fd (.bool b) ++ choiceCheckErrs name fd (.bool b) ++
      customCheckErrs name fd (.bool b) ∧
    rangeCheckErrs name fd (.bool b) =
      rangeCheckErrs name fd (.int (if b then 1 else 0)) ∧
    ∀ t, VErr.typeMismatch name t ∉ validateField name fd (some (.bool b)) := by
  refine ⟨?_, ?_, ?_⟩
  · simp [validateField, h, isinstance]
  · cases b <;> simp [rangeCheckErrs, numVal]
  · intro t hmem
    simp only [validateField, h, isinstance, if_true] at hmem
    rcases List.mem_append.1 hmem with h1 | h1
    rcases List.mem_append.1 h1 with h1 | h1
    rcases List.mem_append.1 h1 with h1 | h1
    rcases List.mem_append.1 h1 with h1 | h1
    · simpa [VErr.isTypeMismatch] using (mem_rangeCheckErrs h1).2
    · simpa [VErr.isTypeMismatch] using (mem_lengthCheckErrs h1).2
    · simpa [VErr.isTypeMismatch] using (mem_patternCheckErrs h1).2
    · simpa [VErr.isTypeMismatch] using (mem_choiceCheckErrs h1).2
    · simpa [VErr.isTypeMismatch] using (mem_customCheckErrs h1).2

/-- An `int` field with a lower bound, for the C10 witness. -/
def fdFlag : Field := { field_type := .int, min := some 1 }

/-- Witness for C10: `False` on an int field with `min=1` is compared as
the number 0 and reports no type mismatch. -/
theorem C10_witness :
    fdFlag.field_type = PyType.int ∧
    rangeCheckErrs "flag" fdFlag (.bool false) = rangeCheckErrs "flag" fdFlag (.int 0) ∧
    VErr.typeMismatch "flag" .int ∉ validateField "flag" fdFlag (some (.bool false)) := by
  refine ⟨rfl, ?_, ?_⟩
  · have h := (C10_bool_passes_integer_type_check "flag" fdFlag false rfl).2.1
    simpa using h
  · exact (C10_bool_passes_integer_type_check "flag" fdFlag false rfl).2.2 .int

/-- Claim C4: a required field absent from the record contributes exactly
one error, the required-missing message, and in particular never a type
mismatch; everything else reported about the record concerns other
fields.  The `Nodup` hypothesis is the Python dict invariant that field
names are unique. -/
theorem C4_required_missing_single_error (fields : SchemaFields) (data : Record)
    (name : String) (fd : Field)
    (hnd : (fields.map Prod.fst).Nodup) (hmem : (name, fd) ∈ fields)
    (hreq : fd.required = true) (habs : data.get name = none) :
    (validate_dict fields data).filter (fun e => e.field == name) = [.required name] ∧
    ∀ t, VErr.typeMismatch name t ∉ validate_dict fields data := by
  have key : (validate_dict fields data).filter (fun e => e.field == name) =
      [.required name] := by
    induction fields with
    | nil => cases hmem
    | cons p rest ih =>
      obtain ⟨k, g⟩ := p
      have hsplit : validate_dict ((k, g) :: rest) data =
          validateField k g (data.get k) ++ validate_dict rest data := rfl
      rw [hsplit, List.filter_append]
      rw [List.map_cons, List.nodup_cons] at hnd
      rcases List.mem_cons.1 hmem with heq | hmemtail
      · obtain ⟨hk, hg⟩ := Prod.mk.injEq .. ▸ heq
        subst hk
        subst hg
        rw [habs]
        have hhead : (validateField name fd none).filter (fun e => e.field == name) =
            [.required name] := by
          simp [validateField, hreq, VErr.field]
        rw [hhead]
        have htail : (validate_dict rest data).filter (fun e => e.field == name) = [] := by
          refine List.filter_eq_nil_iff.2 ?_
          intro e he
          have hf := field_mem_validate_dict he
          simp only [beq_iff_eq]
          intro hcontra
          exact hnd.1 (hcontra ▸ hf)
        rw [htail, List.append_nil]
      · have hknot : k ≠ name := by
          intro hk
          subst hk
          exact hnd.1 (List.mem_map.2 ⟨(k, fd), hmemtail, rfl⟩)
        have hhead : (validateField k g (data.get k)).filter (fun e => e.field == name) =
            [] := by
          refine List.filter_eq_nil_iff.2 ?_
          intro e he
          rw [mem_validateField he]
          simp [hknot]
        rw [hhead]
        simpa using ih hnd.2 hmemtail
  refine ⟨key, ?_⟩
  intro t hmm
  have hfil : VErr.typeMismatch name t ∈
      (validate_dict fields data).filter (fun e => e.field == name) :=
    List.mem_filter.2 ⟨hmm, by simp [VErr.field]⟩
  rw [key] at hfil
  simp at hfil

/-- Witness for C4: in the scenario schema, the record `{age: 200}` misses
the required `id` and reports exactly the required-missing error for it. -/
theorem C4_witness :
    (validate_dict schemaC8 [("age", PyValue.int 200)]).filter
      (fun e => e.field == "id") = [.required "id"] := by
  refine (C4_required_missing_single_error schemaC8 [("age", PyValue.int 200)]
    "id" fdId ?_ ?_ rfl ?_).1
  · decide
  · unfold schemaC8
    exact List.mem_cons_self _ _
  · decide

/-- A string field with both an enumerated choices list and a custom
validator attached, exercising the compilation claim. -/
def fldC5 : Field :=
  { field_type := .str, choices := some [.str "active", .str "inactive"],
    custom_validator := some (fun _ => .ok true) }

/-- Claim C5 is false as stated: this field has a choices list and a
custom validator, yet its compiled rule list contains no rule tagged
`Choice` or `Custom` — `Field.to_rust_rules` never emits them. -/
theorem C5_counterexample :
    fldC5.choices.isSome = true ∧ fldC5.custom_validator.isSome = true ∧
    (to_rust_rules fldC5 "status").filter
      (fun r => r.rule_type == RuleType.Choice || r.rule_type == RuleType.Custom) = [] :=
  ⟨rfl, rfl, rfl⟩

/-- Claim C5 as amended: compilation emits, in order, Required iff the
field is required, TypeCheck always (carrying the declared type tag),
Range iff a numeric bound is set, Length iff a length bound is set, and
Pattern iff a pattern is set — and never a Choice or Custom rule; choices
lists and per-field custom validators are enforced only by
`Schema.validate_dict`, not by the compiled rules. -/
theorem C5_compiled_rule_emission (fd : Field) (n : String) :
    (to_rust_rules fd n).map (·.rule_type) =
      (if fd.required then [RuleType.Required] else []) ++ [RuleType.TypeCheck] ++
      (if fd.min.isSome || fd.max.isSome then [RuleType.Range] else []) ++
      (if fd.min_length.isSome || fd.max_length.isSome then [RuleType.Length] else []) ++
      (if fd.pattern.isSome then [RuleType.Pattern] else []) ∧
    { name := n ++ "_type", field := n, rule_type := RuleType.TypeCheck,
      params := RuleParams.typeParam (typeName fd.field_type) } ∈ to_rust_rules fd n ∧
    ∀ r ∈ to_rust_rules fd n,
      r.rule_type ≠ RuleType.Choice ∧ r.rule_type ≠ RuleType.Custom := by
  refine ⟨?_, ?_, ?_⟩
  · unfold to_rust_rules
    cases hp : fd.pattern <;> split_ifs <;> simp_all
  · unfold to_rust_rules
    simp
  · intro r hr
    unfold to_rust_rules at hr
    rcases List.mem_append.1 hr with h | h
    rcases List.mem_append.1 h with h | h
    rcases List.mem_append.1 h with h | h
    rcases List.mem_append.1 h with h | h
    · split at h <;> simp_all
    · simp_all
    · split at h <;> simp_all
    · split at h <;> simp_all
    · split at h <;> simp_all

/-- Witness for the amended C5: the counterexample field compiles to a
single TypeCheck rule. -/
theorem C5_witness :
    (to_rust_rules fldC5 "status").map (·.rule_type) = [RuleType.TypeCheck] := by
  have h := (C5_compiled_rule_emission fldC5 "status").1
  simpa [fldC5] using h

/-- Looking a key up in a keyed map over a list finds that key's image
whenever the key occurs in the list. -/
theorem lookup_map_self {β : Type} (σ : List Nat) (f : Nat → β) (i : Nat) (h : i ∈ σ) :
    (σ.map (fun j => (j, f j))).lookup i = some (f i) := by
  induction σ with
  | nil => cases h
  | cons j σ ih =>
    simp only [List.map_cons, List.lookup]
    by_cases hij : i = j
    · subst hij
      simp
    · have hbe : (i == j) = false := beq_eq_false_iff_ne.2 hij
      rw [hbe]
      exact ih (by rcases List.mem_cons.1 h with h' | h'; exact absurd h' hij; exact h')

/-- Reading a list positionally over `range` of its length is the same as
mapping over it. -/
theorem range_map_getD {α β : Type} (l : List α) (d : α) (f : α → β) :
    (List.range l.length).map (fun i => f (l.getD i d)) = l.map f := by
  induction l with
  | nil => simp
  | cons x xs ih =>
    rw [List.length_cons, List.range_succ_eq_map]
    simp only [List.map_cons, List.map_map]
    have hc : ((fun i => f ((x :: xs).getD i d)) ∘ Nat.succ) = fun i => f (xs.getD i d) := rfl
    rw [hc, ih]
    rfl

/-- Gathering future results in submission order recovers, for any
completion schedule covering all chunks, exactly the per-chunk results in
chunk order. -/
theorem gather_eq (fields : SchemaFields) (chunks : List (List Record)) (σ : List Nat)
    (hσ : σ.Perm (List.range chunks.length)) :
    gatherResults fields chunks σ = chunks.map (validate_chunk fields) := by
  unfold gatherResults completionLog
  have hmap : ∀ i ∈ List.range chunks.length,
      (((σ.map (fun j => (j, validate_chunk fields (chunks.getD j [])))).lookup i).getD
        default) = validate_chunk fields (chunks.getD i []) := by
    intro i hi
    rw [lookup_map_self σ (fun j => validate_chunk fields (chunks.getD j [])) i
      (hσ.mem_iff.2 hi)]
    rfl
  rw [List.map_congr_left hmap]
  exact range_map_getD chunks [] (validate_chunk fields)

/-- Claim C1: for a fixed chunk partition, dispatching through the worker
pool under any completion schedule and any worker count yields the same
final `ValidationResult` — counts and ordered error list — as dispatching
the chunks sequentially. -/
theorem C1_parallel_dispatch_refines_sequential (fields : SchemaFields) (workers : Nat)
    (chunks : List (List Record)) (σ : List Nat)
    (_hw : 0 < workers) (_hcs : ∀ c ∈ chunks, 0 < c.length)
    (hσ : σ.Perm (List.range chunks.length)) :
    parallelValidate fields workers chunks σ = sequentialValidate fields chunks := by
  unfold parallelValidate sequentialValidate
  rw [gather_eq fields chunks σ hσ]

/-- Two nonempty chunks over the scenario schema, for the C1 witness. -/
def chunksC1 : List (List Record) :=
  [[[("id", PyValue.str "1"), ("age", PyValue.int 15)]],
   [[("age", PyValue.int 200)], [("id", PyValue.str "2"), ("age", PyValue.int 30)]]]

/-- Witness for C1: two workers completing the two chunks in reversed
order still produce the sequential result. -/
theorem C1_witness :
    parallelValidate schemaC8 2 chunksC1 [1, 0] = sequentialValidate schemaC8 chunksC1 :=
  C1_parallel_dispatch_refines_sequential schemaC8 2 chunksC1 [1, 0]
    (by decide) (by decide) (by decide)

/-- Removing no keys leaves an association list unchanged. -/
theorem removeKeys_nil {α : Type} (l : List (String × α)) :
    removeKeys ([] : List String) l = l := by
  induction l with
  | nil => rfl
  | cons p rest ih =>
    simp only [removeKeys, List.filter] at ih ⊢
    simp [ih]

/-- After assigning a key and then dropping rows whose keys are in a list
not containing it, looking that key up finds the assigned value. -/
theorem lookup_removeKeys_dictInsert {α : Type} (ks : List String) (k : String) (v : α)
    (m : List (String × α)) (hk : k ∉ ks) :
    (removeKeys ks (dictInsert k v m)).lookup k = some v := by
  have hck : ks.contains k = false := by simpa using hk
  induction m with
  | nil =>
    simp only [dictInsert, removeKeys, List.filter, hck]
    simp [List.lookup]
  | cons p rest ih =>
    obtain ⟨u, w⟩ := p
    by_cases hku : k = u
    · subst hku
      simp only [dictInsert, if_pos rfl, removeKeys, List.filter, hck]
      simp [List.lookup]
    · simp only [dictInsert, if_neg hku, removeKeys, List.filter]
      by_cases hcu : ks.contains u = true
      · simp only [hcu, Bool.not_true]
        exact ih
      · simp only [Bool.not_eq_true] at hcu
        simp only [hcu, Bool.not_false]
        have hbe : (k == u) = false := beq_eq_false_iff_ne.2 hku
        simp only [List.lookup, hbe]
        exact ih

/-- In a dict with unique keys, the only row the assigned key can carry
after an assignment is the assigned value. -/
theorem mem_dictInsert_unique {α : Type} (m : List (String × α)) (k : String) (v v' : α)
    (hnd : (m.map Prod.fst).Nodup) (hmem : (k, v') ∈ dictInsert k v m) : v' = v := by
  induction m with
  | nil =>
    simp [dictInsert] at hmem
    exact hmem
  | cons p rest ih =>
    obtain ⟨u, w⟩ := p
    rw [List.map_cons, List.nodup_cons] at hnd
    by_cases hku : k = u
    · subst hku
      rw [dictInsert, if_pos rfl] at hmem
      rcases List.mem_cons.1 hmem with heq | htail
      · exact (Prod.mk.injEq .. ▸ heq).2
      · exact absurd (List.mem_map.2 ⟨(k, v'), htail, rfl⟩) hnd.1
    · rw [dictInsert, if_neg hku] at hmem
      rcases List.mem_cons.1 hmem with heq | htail
      · exact absurd (Prod.mk.injEq .. ▸ heq).1 hku
      · exact ih hnd.2 htail

/-- A manifest entry written at the current instant is not expired when
the TTL is positive, so the expired-entry sweep never removes it. -/
theorem fresh_not_expired (cfg : CacheConfig) (m : List (String × ManifestEntry))
    (k fp : String) (t : Int) (hnd : (m.map Prod.fst).Nodup) (httl : 0 < cfg.ttl) :
    k ∉ expiredKeys cfg (dictInsert k ⟨fp, t⟩ m) t := by
  intro hmem
  unfold expiredKeys at hmem
  rcases List.mem_map.1 hmem with ⟨p, hp, hfst⟩
  obtain ⟨u, e⟩ := p
  cases hfst
  have hpm := List.mem_of_mem_filter hp
  have he : e = ⟨fp, t⟩ := mem_dictInsert_unique m u _ e hnd hpm
  have hcond : t - e.created_at ≥ cfg.ttl := by simpa using List.of_mem_filter hp
  rw [he] at hcond
  simp at hcond
  omega

/-- Claim C7: saving a result under the digest of the input bytes and
loading under the same digest at the same instant returns the stored
counts (with the error list not persisted), and once the entry's age
reaches the TTL the load returns `none`.  Hypotheses: the manifest keys
are unique (the Python dict invariant), the TTL is positive, and the cache
is within its size budget after the write, so the eviction loop removes
nothing. -/
theorem C7_cache_roundtrip_and_expiry (cfg : CacheConfig) (st : CacheState)
    (h fp : String) (r : ValidationResult) (t : Int)
    (hnd : (st.manifest.map Prod.fst).Nodup) (httl : 0 < cfg.ttl)
    (hsize : cacheSize cfg (purgeExpired cfg (stateAfterWrite st h fp r t) t).manifest
        (purgeExpired cfg (stateAfterWrite st h fp r t) t).files ≤ cfg.max_cache_size) :
    load_result cfg (save_result cfg st h fp r t) h t =
      some { valid_count := r.valid_count, invalid_count := r.invalid_count,
             total_rows := r.total_rows, errors := [] } ∧
    ∀ u : Int, cfg.ttl ≤ u - t →
      load_result cfg (save_result cfg st h fp r t) h u = none := by
  have hsave : save_result cfg st h fp r t =
      purgeExpired cfg (stateAfterWrite st h fp r t) t := by
    unfold save_result cleanup_cache
    have hng : ¬ (cacheSize cfg (purgeExpired cfg (stateAfterWrite st h fp r t) t).manifest
        (purgeExpired cfg (stateAfterWrite st h fp r t) t).files > cfg.max_cache_size) :=
      not_lt.2 hsize
    simp [hng, removeKeys_nil]
  have hq : h ∉ expiredKeys cfg (dictInsert h ⟨fp, t⟩ st.manifest) t :=
    fresh_not_expired cfg st.manifest h fp t hnd httl
  have hman : (purgeExpired cfg (stateAfterWrite st h fp r t) t).manifest.lookup h =
      some ⟨fp, t⟩ := by
    unfold purgeExpired stateAfterWrite
    exact lookup_removeKeys_dictInsert _ _ _ _ hq
  have hfil : (purgeExpired cfg (stateAfterWrite st h fp r t) t).files.lookup h =
      some ⟨r.valid_count, r.invalid_count, r.total_rows⟩ := by
    unfold purgeExpired stateAfterWrite
    exact lookup_removeKeys_dictInsert _ _ _ _ hq
  constructor
  · rw [hsave]
    simp [load_result, isCacheValid, hman, hfil, httl]
  · intro u hu
    rw [hsave]
    simp [load_result, isCacheValid, hman, show ¬ (u - t < cfg.ttl) by omega]

/-- A small cache configuration for the C7 witness. -/
def cfgC7 : CacheConfig := { ttl := 10, max_cache_size := 100, entrySize := fun _ => 1 }

/-- The empty cache state. -/
def stC7 : CacheState := { manifest := [], files := [] }

/-- The result stored by the C7 witness. -/
def rC7 : ValidationResult := { valid_count := 2, invalid_count := 1, total_rows := 3 }

/-- Witness for C7: a concrete save-then-load returns the stored counts,
and a load at the TTL boundary misses. -/
theorem C7_witness :
    load_result cfgC7 (save_result cfgC7 stC7 "abc" "data.csv" rC7 0) "abc" 0 =
      some { valid_count := 2, invalid_count := 1, total_rows := 3, errors := [] } ∧
    load_result cfgC7 (save_result cfgC7 stC7 "abc" "data.csv" rC7 0) "abc" 10 = none := by
  have h := C7_cache_roundtrip_and_expiry cfgC7 stC7 "abc" "data.csv" rC7 0
    (by decide) (by decide) (by decide)
  exact ⟨h.1, h.2 10 (by decide)⟩

end PyRustPipe
